import Mathlib

/-!
The audio track of the streaming player, `Media::Streaming::AudioTrack`: a shallow
embedding of `Telegram/SourceFiles/media/streaming/media_streaming_audio_track.cpp`.

The track is a record of its member variables.  Every member function becomes a
function from the track (and the arguments of the call) to the new track and the
list of externally visible calls it made, in program order: calls into the decoder
(`ProcessPacket`, `ReadNextFrame`), calls into the mixer (`play`, `feedFromVideo`)
and invocations of the two callbacks (`_ready`, `_error`).  A function returns
`none` when the C++ program stops there: a failed `Expects` or an integer
division the hardware traps on.

What the external collaborators answer (the decoder for a packet, the mixer for
`currentState`) is an argument of the call, so that theorems quantify over every
possible answer.
-/

namespace Media.Streaming

/-! ## Machine integers -/

/-- The value a signed 64-bit register holds after an operation whose mathematical
result is `x` (two's complement). Signed overflow is undefined in C++; this is what
the supported targets compute. -/
def wrapInt64 (x : Int) : Int := (x + 2 ^ 63) % 2 ^ 64 - 2 ^ 63

/-- The integer `x` is representable in `crl::time` (`int64`). -/
def fitsInt64 (x : Int) : Prop := -(2 ^ 63) ≤ x ∧ x < 2 ^ 63

instance (x : Int) : Decidable (fitsInt64 x) := by
  unfold fitsInt64; exact inferInstance

/-- Product of two `int64` operands, `a * b` in the source. -/
def mulInt64 (a b : Int) : Int := wrapInt64 (a * b)

/-- Quotient of two `int64` operands, `a / b` in the source: truncation toward zero.
There is no result when the divisor is zero or the quotient is not representable
(the division traps). -/
def divInt64 (a b : Int) : Option Int :=
  if b = 0 ∨ (a = -(2 ^ 63) ∧ b = -1) then none else some (Int.tdiv a b)

/-! ## Data model -/

/-- Modelled from the spec: class `Packet` is declared in a header that is not among
the sources. The spec describes it as "a unit of compressed data or an end-of-stream
marker (empty)"; the payload is kept as an uninterpreted list of bytes. -/
structure Packet where
  data : List Nat
deriving DecidableEq, Repr

/-- Rendering of `Packet::empty()`: the packet is the end-of-stream marker. -/
def Packet.empty (p : Packet) : Bool := p.data.isEmpty

/-- Modelled from the spec: `AudioMsgId` is declared outside the sources. The spec
calls it the "playback identifier (nonzero, assigned at construction, immutable)";
the constructor of the track inspects `playId()` only. -/
structure AudioMsgId where
  playId : Nat
deriving DecidableEq, Repr

/-- Modelled from the spec: `PlaybackOptions` is `{ position: timestamp, speed: factor }`.
The speed is only copied, never computed with. -/
structure PlaybackOptions where
  position : Int
  speed : Int
deriving DecidableEq, Repr

/-- Modelled from the spec: the fields of `Stream` (the "Decode Context") that the
track reads. `frame` and `codec` are owning pointers: `none` once released. -/
structure Stream where
  index : Int
  duration : Int
  frequency : Int
  frame : Option Nat
  codec : Option Nat
deriving DecidableEq, Repr

/-- The record `mixerInit` fills and hands to the mixer. -/
structure VideoSoundData where
  frame : Option Nat
  context : Option Nat
  frequency : Int
  length : Int
  speed : Int
deriving DecidableEq, Repr

/-- The `state` member of `AudioInformation`, as filled by `callReady`. -/
structure TrackState where
  position : Int
  receivedTill : Int
  duration : Int
deriving DecidableEq, Repr

/-- The audio half of the payload of the ready callback (the video half is
default-constructed by `callReady`). -/
structure AudioInformation where
  state : TrackState
deriving DecidableEq, Repr

/-- The states of `Media::Player::State` the subscription switches over. -/
inductive State where
  | Stopped
  | StoppedAtEnd
  | StoppedAtError
  | StoppedAtStart
  | Starting
  | Playing
  | Stopping
  | Pausing
  | Paused
  | PausedAtEnd
  | Resuming
deriving DecidableEq, Repr

/-- Modelled from the spec: the answer of `mixer()->currentState(type)`, "a playback
identifier and a PlaybackState plus a sample-domain position/frequency pair". -/
structure MixerState where
  id : AudioMsgId
  state : State
  position : Int
  frequency : Int
deriving DecidableEq, Repr

/-- Modelled from the spec: what `ReadNextFrame(_stream)` returns, as far as
`tryReadFirstFrame` tells the answers apart. The error wrapper and the libav error
codes are not among the sources; the spec names a produced frame, "stream ended"
(`AVERROR_EOF`), "need more input" (`AVERROR(EAGAIN)`) and any other failure. -/
inductive ReadResult where
  | frame
  | eof
  | again
  | other (code : Int)
deriving DecidableEq, Repr

/-- What the decoder answers during one `process` call. -/
structure DecodeOutcome where
  /-- The value of `ProcessPacket(_stream, packet).failed()`. -/
  processFailed : Bool
  /-- The value of `ReadNextFrame(_stream)`. -/
  readResult : ReadResult
  /-- The value of `FramePosition(_stream)`. -/
  framePosition : Int
deriving DecidableEq, Repr

/-- Externally visible calls made by the track. -/
inductive Event where
  /-- The call `ProcessPacket(_stream, packet)`. -/
  | processPacket (packet : Packet)
  /-- The call `ReadNextFrame(_stream)`. -/
  | readNextFrame
  /-- The call `mixer()->play(id, data, position)`. -/
  | mixerPlay (id : AudioMsgId) (data : VideoSoundData) (position : Int)
  /-- The call `mixer()->feedFromVideo({ &packet.fields(), id })`. -/
  | mixerFeedFromVideo (packet : Packet) (id : AudioMsgId)
  /-- The call of the `_ready` callback. -/
  | ready (data : AudioInformation)
  /-- The call of the `_error` callback. -/
  | error
deriving DecidableEq, Repr

/-- The member variables of `AudioTrack`. The callbacks themselves are not stored:
`readyPending` is `_ready != nullptr`, and `_error` is never null. -/
structure AudioTrack where
  options : PlaybackOptions
  stream : Stream
  audioId : AudioMsgId
  readyPending : Bool
  /-- Modelled from the spec: `_playPosition` is declared in the header, which is not
  among the sources; the spec describes it as "last-known position (optional, absent
  once stream fully ends)", so `reset()` leaves `none`. -/
  playPosition : Option Int
  noMoreData : Bool
  startedPosition : Int
  /-- Whether `_subscription` is set. -/
  subscribed : Bool
deriving DecidableEq, Repr

/-! ## Member functions -/

/-- The constructor. The three `Expects` are on the callbacks (never null here) and on
`audioId.playId() != 0`. The members without an initializer in the constructor take
their values from the header; they are arguments here. -/
def AudioTrack.create (options : PlaybackOptions) (stream : Stream) (audioId : AudioMsgId)
    (noMoreData : Bool) (startedPosition : Int) : Option AudioTrack :=
  if audioId.playId = 0 then none
  else some
    { options := options
      stream := stream
      audioId := audioId
      readyPending := true
      playPosition := some options.position
      noMoreData := noMoreData
      startedPosition := startedPosition
      subscribed := false }

/-- The body of `AudioTrack::initialized`: `return !_ready;`. -/
def initialized (t : AudioTrack) : Bool := !t.readyPending

/-- The body of `AudioTrack::fillStateFromFrame`; `kTimeUnknown` is a constant of the
code base whose definition is not among the sources. -/
def fillStateFromFrame (kTimeUnknown : Int) (t : AudioTrack) (o : DecodeOutcome) :
    Bool × AudioTrack :=
  let t := { t with startedPosition := o.framePosition }
  (decide (t.startedPosition ≠ kTimeUnknown), t)

/-- The body of `AudioTrack::mixerInit`. -/
def mixerInit (t : AudioTrack) : Option (AudioTrack × List Event) :=
  if initialized t then none
  else
    let data : VideoSoundData :=
      { frame := t.stream.frame
        context := t.stream.codec
        frequency := t.stream.frequency
        length := Int.tdiv (mulInt64 t.stream.duration t.stream.frequency) 1000
        speed := t.options.speed }
    some ({ t with stream := { t.stream with frame := none, codec := none } },
      [Event.mixerPlay t.audioId data t.startedPosition])

/-- The body of `AudioTrack::callReady`. -/
def callReady (t : AudioTrack) : Option (AudioTrack × List Event) :=
  if t.readyPending then
    let data : AudioInformation :=
      { state :=
          { duration := t.stream.duration
            position := t.startedPosition
            receivedTill := if t.noMoreData then t.stream.duration else t.startedPosition } }
    some ({ t with readyPending := false }, [Event.ready data])
  else none

/-- The body of `AudioTrack::tryReadFirstFrame`, with its boolean result. -/
def tryReadFirstFrame (kTimeUnknown : Int) (t : AudioTrack) (packet : Packet)
    (o : DecodeOutcome) : Option (Bool × AudioTrack × List Event) :=
  if o.processFailed then
    some (false, t, [Event.processPacket packet])
  else
    match o.readResult with
    | ReadResult.eof => some (false, t, [Event.processPacket packet, Event.readNextFrame])
    | ReadResult.other _ => some (false, t, [Event.processPacket packet, Event.readNextFrame])
    | ReadResult.again =>
      if t.noMoreData then some (false, t, [Event.processPacket packet, Event.readNextFrame])
      else some (true, t, [Event.processPacket packet, Event.readNextFrame])
    | ReadResult.frame =>
      match fillStateFromFrame kTimeUnknown t o with
      | (false, t1) => some (false, t1, [Event.processPacket packet, Event.readNextFrame])
      | (true, t1) =>
        match mixerInit t1 with
        | none => none
        | some (t2, e2) =>
          match callReady t2 with
          | none => none
          | some (t3, e3) =>
            some (true, t3, [Event.processPacket packet, Event.readNextFrame] ++ e2 ++ e3)

/-- The body of `AudioTrack::mixerEnqueue`. -/
def mixerEnqueue (t : AudioTrack) (packet : Packet) : List Event :=
  [Event.mixerFeedFromVideo packet t.audioId]

/-- The body of `AudioTrack::process`. -/
def process (kTimeUnknown : Int) (t : AudioTrack) (packet : Packet) (o : DecodeOutcome) :
    Option (AudioTrack × List Event) :=
  let t := { t with noMoreData := packet.empty }
  if initialized t then
    some (t, mixerEnqueue t packet)
  else
    match tryReadFirstFrame kTimeUnknown t packet o with
    | none => none
    | some (true, t1, evs) => some (t1, evs)
    | some (false, t1, evs) => some (t1, evs ++ [Event.error])

/-- The lambda `playPosition` subscribes to `Media::Player::Updated()`: `id` is the
identifier the notification carries, `state` the answer of `currentState`. -/
def playPositionHandler (t : AudioTrack) (id : AudioMsgId) (state : MixerState) :
    Option (AudioTrack × List Event) :=
  if id ≠ t.audioId then some (t, [])
  else if state.id ≠ t.audioId then some (t, [])
  else
    match state.state with
    | State.Stopped | State.StoppedAtEnd | State.PausedAtEnd =>
      some ({ t with playPosition := none }, [])
    | State.StoppedAtError | State.StoppedAtStart =>
      some (t, [Event.error])
    | State.Starting | State.Playing | State.Stopping | State.Pausing | State.Resuming =>
      match divInt64 (mulInt64 state.position 1000) state.frequency with
      | none => none
      | some ms => some ({ t with playPosition := some ms }, [])
    | State.Paused => some (t, [])

/-- The body of `AudioTrack::playPosition`: the subscription is installed on the first
call; the returned producer is read off `playPosition` of the track. -/
def playPosition (t : AudioTrack) : Option AudioTrack :=
  if t.readyPending then none
  else if t.subscribed then some t
  else some { t with subscribed := true }

/-! ## Sequences of calls -/

/-- One thing that happens to a track. -/
inductive Step where
  /-- The owner calls `process(packet)`; the decoder answers `outcome`. -/
  | process (packet : Packet) (outcome : DecodeOutcome)
  /-- The owner calls `playPosition()`. -/
  | playPosition
  /-- The mixer fires `Updated()` with `id` and would answer `state`. -/
  | updated (id : AudioMsgId) (state : MixerState)
deriving DecidableEq, Repr

/-- Effect of one step: the new track and the calls made. -/
def step (kTimeUnknown : Int) (t : AudioTrack) : Step → Option (AudioTrack × List Event)
  | Step.process packet o => process kTimeUnknown t packet o
  | Step.playPosition => (playPosition t).map (fun t1 => (t1, []))
  | Step.updated id state =>
    if t.subscribed then playPositionHandler t id state else some (t, [])

/-- Runs the steps in order. For every completed step the result holds the track after it
and the calls it made; the run ends early when a step stops the program. -/
def run (kTimeUnknown : Int) : AudioTrack → List Step → List (AudioTrack × List Event)
  | _, [] => []
  | t, s :: rest =>
    match step kTimeUnknown t s with
    | none => []
    | some (t1, evs) => (t1, evs) :: run kTimeUnknown t1 rest

/-- All calls made during a run, in order. -/
def trace (h : List (AudioTrack × List Event)) : List Event :=
  (h.map Prod.snd).flatten

/-- Recognises an invocation of the ready callback. -/
def Event.isReady : Event → Bool
  | Event.ready _ => true
  | _ => false

/-- Recognises an invocation of the error callback. -/
def Event.isError : Event → Bool
  | Event.error => true
  | _ => false

/-- Recognises a call of `mixer()->play`. -/
def Event.isMixerPlay : Event → Bool
  | Event.mixerPlay _ _ _ => true
  | _ => false

/-- The steps that feed the given packets through `process`, with the decoder's answers. -/
def processSteps (calls : List (Packet × DecodeOutcome)) : List Step :=
  calls.map (fun c => Step.process c.1 c.2)

/-- The first-frame attempt of this call succeeds: the packet was fed, a frame was read
and its position is known. -/
def DecodeOutcome.started (kTimeUnknown : Int) (o : DecodeOutcome) : Prop :=
  o.processFailed = false ∧ o.readResult = ReadResult.frame ∧ o.framePosition ≠ kTimeUnknown

instance (k : Int) (o : DecodeOutcome) : Decidable (o.started k) := by
  unfold DecodeOutcome.started; exact inferInstance

/-- The call yields a decodable frame: the packet was fed and `ReadNextFrame` produced a
frame. -/
def DecodeOutcome.yieldsFrame (o : DecodeOutcome) : Prop :=
  o.processFailed = false ∧ o.readResult = ReadResult.frame

instance (o : DecodeOutcome) : Decidable o.yieldsFrame := by
  unfold DecodeOutcome.yieldsFrame; exact inferInstance

/-- The first-frame attempt of this call has to wait: the packet is not the end-of-stream
marker, it was fed, and the decoder needs more input. -/
def transientWait (p : Packet) (o : DecodeOutcome) : Prop :=
  p.empty = false ∧ o.processFailed = false ∧ o.readResult = ReadResult.again

instance (p : Packet) (o : DecodeOutcome) : Decidable (transientWait p o) := by
  unfold transientWait; exact inferInstance

/-- The track a run leaves behind: the one after its last completed step, or the initial
track when no step completed. -/
def lastTrack (t : AudioTrack) : List (AudioTrack × List Event) → AudioTrack
  | [] => t
  | r :: h => lastTrack r.1 h

/-- The spec's "integer truncation toward zero", said without the machine's division:
the quotient of the absolute values, with the sign of the exact quotient. -/
def truncatedQuotient (n d : Int) : Int :=
  Int.sign n * Int.sign d * ((n.natAbs / d.natAbs : Nat) : Int)

/-! ## Values for the instances -/

/-- A value of `kTimeUnknown` for the examples: the least `crl::time`. -/
def demoTimeUnknown : Int := -(2 ^ 63)

/-- A track as the constructor leaves it: 5000 ms of audio at 44100 Hz, to be played from
position 0, with identifier 7. -/
def demoTrack : AudioTrack :=
  { options := { position := 0, speed := 1 }
    stream := { index := 0, duration := 5000, frequency := 44100, frame := some 1,
                codec := some 2 }
    audioId := { playId := 7 }
    readyPending := true
    playPosition := some 0
    noMoreData := false
    startedPosition := 0
    subscribed := false }

/-- The demo track once initialized and subscribed to the mixer's notifications. -/
def demoPlayingTrack : AudioTrack :=
  { demoTrack with readyPending := false, subscribed := true }

/-- A packet with a payload. -/
def demoPacket : Packet := { data := [1] }

/-- The end-of-stream marker. -/
def emptyPacket : Packet := { data := [] }

/-- The decoder takes the packet and reads a frame at position 0. -/
def frameAtZero : DecodeOutcome :=
  { processFailed := false, readResult := ReadResult.frame, framePosition := 0 }

/-- The decoder takes the packet and needs more input. -/
def needsMoreInput : DecodeOutcome :=
  { processFailed := false, readResult := ReadResult.again, framePosition := 0 }

/-- The decoder rejects the packet (`ReadNextFrame` is then not called). -/
def feedFails : DecodeOutcome :=
  { processFailed := true, readResult := ReadResult.again, framePosition := 0 }

/-- The mixer's answer: this track has stopped on an error. -/
def stoppedAtError : MixerState :=
  { id := { playId := 7 }, state := State.StoppedAtError, position := 0, frequency := 44100 }

/-! ## One call of `process` -/

/-- An initialized track only forwards the packet to the mixer. -/
theorem process_initialized (k : Int) (t : AudioTrack) (p : Packet) (o : DecodeOutcome)
    (h : t.readyPending = false) :
    process k t p o
      = some ({ t with noMoreData := p.empty }, [Event.mixerFeedFromVideo p t.audioId]) := by
  simp [process, initialized, mixerEnqueue, h]

/-- Every path of first-frame detection, written out: the track and the calls made. -/
theorem process_uninitialized (k : Int) (t : AudioTrack) (p : Packet) (o : DecodeOutcome)
    (h : t.readyPending = true) :
    process k t p o = some (
      if o.processFailed then
        ({ t with noMoreData := p.empty }, [Event.processPacket p, Event.error])
      else
        match o.readResult with
        | ReadResult.eof | ReadResult.other _ =>
          ({ t with noMoreData := p.empty },
            [Event.processPacket p, Event.readNextFrame, Event.error])
        | ReadResult.again =>
          if p.empty then
            ({ t with noMoreData := p.empty },
              [Event.processPacket p, Event.readNextFrame, Event.error])
          else
            ({ t with noMoreData := p.empty }, [Event.processPacket p, Event.readNextFrame])
        | ReadResult.frame =>
          if o.framePosition = k then
            ({ t with noMoreData := p.empty, startedPosition := o.framePosition },
              [Event.processPacket p, Event.readNextFrame, Event.error])
          else
            ({ t with
                noMoreData := p.empty
                startedPosition := o.framePosition
                stream := { t.stream with frame := none, codec := none }
                readyPending := false },
              [Event.processPacket p, Event.readNextFrame,
                Event.mixerPlay t.audioId
                  { frame := t.stream.frame
                    context := t.stream.codec
                    frequency := t.stream.frequency
                    length := Int.tdiv (mulInt64 t.stream.duration t.stream.frequency) 1000
                    speed := t.options.speed }
                  o.framePosition,
                Event.ready
                  { state :=
                      { duration := t.stream.duration
                        position := o.framePosition
                        receivedTill :=
                          if p.empty then t.stream.duration else o.framePosition } }])) := by
  rcases o with ⟨pf, rr, fp⟩
  cases pf <;> cases rr <;> cases hp : p.empty <;>
    simp [process, initialized, tryReadFirstFrame, fillStateFromFrame, mixerInit, callReady, h, hp]
  all_goals (by_cases hk : fp = k <;> simp [hk])

/-- What one `process` call does, by the state of the track and the decoder's answer:
forwarding, a successful start, a transient wait, or a failure. In particular the call
always returns: no `Expects` on its paths can fail. -/
theorem process_cases (k : Int) (t : AudioTrack) (p : Packet) (o : DecodeOutcome) :
    ∃ t1 evs, process k t p o = some (t1, evs) ∧ t1.audioId = t.audioId ∧
      t1.subscribed = t.subscribed ∧ t1.playPosition = t.playPosition ∧
      t1.stream.duration = t.stream.duration ∧
      ((t.readyPending = false ∧ t1.readyPending = false ∧
          evs = [Event.mixerFeedFromVideo p t.audioId]) ∨
        (t.readyPending = true ∧ o.started k ∧ t1.readyPending = false ∧
          ∃ d i, evs = [Event.processPacket p, Event.readNextFrame,
            Event.mixerPlay t.audioId d t1.startedPosition, Event.ready i]) ∨
        (t.readyPending = true ∧ transientWait p o ∧ t1.readyPending = true ∧
          evs = [Event.processPacket p, Event.readNextFrame]) ∨
        (t.readyPending = true ∧ ¬ o.started k ∧ ¬ transientWait p o ∧
          t1.readyPending = true ∧
          (evs = [Event.processPacket p, Event.error] ∨
            evs = [Event.processPacket p, Event.readNextFrame, Event.error]))) := by
  cases h : t.readyPending
  · exact ⟨_, _, process_initialized k t p o h, by simp [h]⟩
  · refine ⟨_, _, by rw [process_uninitialized k t p o h], ?_⟩
    rcases o with ⟨pf, rr, fp⟩
    cases pf <;> cases rr <;> cases hp : p.empty <;>
      simp [DecodeOutcome.started, transientWait, h, hp]
    all_goals (by_cases hk : fp = k <;> simp [hk, h])

/-! ## The subscription and one step -/

/-- The handler never touches the ready callback, the identifier or the mixer's `play`;
it calls the error callback at most once. -/
theorem playPositionHandler_facts (t : AudioTrack) (id : AudioMsgId) (st : MixerState)
    (t1 : AudioTrack) (evs : List Event) (h : playPositionHandler t id st = some (t1, evs)) :
    t1.readyPending = t.readyPending ∧ t1.audioId = t.audioId ∧
      t1.subscribed = t.subscribed ∧ (evs = [] ∨ evs = [Event.error]) := by
  unfold playPositionHandler at h
  split_ifs at h
  · simp at h; obtain ⟨rfl, rfl⟩ := h; simp
  · simp at h; obtain ⟨rfl, rfl⟩ := h; simp
  · split at h
    all_goals first
      | (simp at h; obtain ⟨rfl, rfl⟩ := h; simp)
      | (split at h
         · simp at h
         · simp at h; obtain ⟨rfl, rfl⟩ := h; simp)

/-- Counting the callbacks and the `play` calls of one step. -/
theorem step_facts (k : Int) (t : AudioTrack) (s : Step) (t1 : AudioTrack)
    (evs : List Event) (h : step k t s = some (t1, evs)) :
    t1.audioId = t.audioId ∧
      evs.countP Event.isError ≤ 1 ∧
      evs.countP Event.isMixerPlay = evs.countP Event.isReady ∧
      ((t.readyPending = false ∧ t1.readyPending = false ∧ evs.countP Event.isReady = 0) ∨
       (t.readyPending = true ∧ t1.readyPending = true ∧ evs.countP Event.isReady = 0) ∨
       (t.readyPending = true ∧ t1.readyPending = false ∧ evs.countP Event.isReady = 1 ∧
          evs.countP Event.isError = 0)) := by
  cases s with
  | process p o =>
    obtain ⟨t2, evs2, h2, hid, -, -, -, hc⟩ := process_cases k t p o
    simp only [step] at h
    rw [h2] at h
    simp only [Option.some.injEq, Prod.mk.injEq] at h
    obtain ⟨rfl, rfl⟩ := h
    refine ⟨hid, ?_⟩
    rcases hc with ⟨h1, h3, rfl⟩ | ⟨h1, -, h3, d, i, rfl⟩ | ⟨h1, -, h3, rfl⟩ |
      ⟨h1, -, -, h3, rfl | rfl⟩ <;>
      simp [h1, h3, Event.isError, Event.isReady, Event.isMixerPlay, List.countP_cons]
  | playPosition =>
    simp only [step, playPosition] at h
    split_ifs at h with h1 h2
    · simp at h
    · simp at h; obtain ⟨rfl, rfl⟩ := h
      cases hr : t.readyPending <;> simp_all
    · simp at h; obtain ⟨rfl, rfl⟩ := h
      simp_all
  | updated id st =>
    simp only [step] at h
    split_ifs at h with h1
    · obtain ⟨hr, hid, -, he⟩ := playPositionHandler_facts t id st t1 evs h
      refine ⟨hid, ?_⟩
      rcases he with rfl | rfl <;>
        cases hr2 : t.readyPending <;>
        simp_all [Event.isError, Event.isReady, Event.isMixerPlay, List.countP_cons]
    · simp at h; obtain ⟨rfl, rfl⟩ := h
      cases hr : t.readyPending <;> simp_all

/-! ## Runs -/

theorem trace_cons (r : AudioTrack × List Event) (h : List (AudioTrack × List Event)) :
    trace (r :: h) = r.2 ++ trace h := by
  simp [trace]

theorem run_cons_some (k : Int) (t : AudioTrack) (s : Step) (rest : List Step)
    (t1 : AudioTrack) (evs : List Event) (h : step k t s = some (t1, evs)) :
    run k t (s :: rest) = (t1, evs) :: run k t1 rest := by
  simp [run, h]

/-- Feeding a packet always completes the step. -/
theorem run_processSteps_cons (k : Int) (t : AudioTrack) (c : Packet × DecodeOutcome)
    (cs : List (Packet × DecodeOutcome)) :
    ∃ t1 evs, process k t c.1 c.2 = some (t1, evs) ∧
      run k t (processSteps (c :: cs)) = (t1, evs) :: run k t1 (processSteps cs) := by
  obtain ⟨t1, evs, h, -⟩ := process_cases k t c.1 c.2
  exact ⟨t1, evs, h, by simp [processSteps, run, step, h]⟩

/-- A run of `process` calls never stops early. -/
theorem run_processSteps_length (k : Int) (calls : List (Packet × DecodeOutcome)) :
    ∀ t : AudioTrack, (run k t (processSteps calls)).length = calls.length := by
  induction calls with
  | nil => intro t; simp [processSteps, run]
  | cons c cs ih =>
    intro t
    obtain ⟨t1, evs, -, h⟩ := run_processSteps_cons k t c cs
    simp [h, ih t1]

/-- Every entry of a run is the result of a step, and what follows it is a run from the
track it left. -/
theorem run_split (k : Int) (steps : List Step) :
    ∀ (t : AudioTrack) (pre : List (AudioTrack × List Event)) (r : AudioTrack × List Event)
      (post : List (AudioTrack × List Event)), run k t steps = pre ++ r :: post →
      ∃ t0 s rest, step k t0 s = some r ∧ post = run k r.1 rest := by
  induction steps with
  | nil => intro t pre r post h; simp [run] at h
  | cons s rest ih =>
    intro t pre r post h
    cases hs : step k t s with
    | none => simp [run, hs] at h
    | some r1 =>
      obtain ⟨t1, evs⟩ := r1
      rw [run_cons_some k t s rest t1 evs hs] at h
      cases pre with
      | nil =>
        simp only [List.nil_append, List.cons.injEq] at h
        obtain ⟨rfl, rfl⟩ := h
        exact ⟨t, s, rest, hs, rfl⟩
      | cons x pre1 =>
        simp only [List.cons_append, List.cons.injEq] at h
        exact ih t1 pre1 r post h.2

/-- Once the ready callback is consumed, it stays consumed, is not called again, and the
mixer's `play` is not called again. -/
theorem run_initialized (k : Int) (steps : List Step) :
    ∀ t : AudioTrack, t.readyPending = false →
      (∀ r ∈ run k t steps, r.1.readyPending = false) ∧
      (trace (run k t steps)).countP Event.isReady = 0 ∧
      (trace (run k t steps)).countP Event.isMixerPlay = 0 := by
  induction steps with
  | nil => intro t _; simp [run, trace]
  | cons s rest ih =>
    intro t ht
    cases hs : step k t s with
    | none => simp [run, hs, trace]
    | some r1 =>
      obtain ⟨t1, evs⟩ := r1
      rw [run_cons_some k t s rest t1 evs hs]
      obtain ⟨-, -, hp, hc⟩ := step_facts k t s t1 evs hs
      have h1 : t1.readyPending = false ∧ evs.countP Event.isReady = 0 := by
        rcases hc with ⟨-, h1, h2⟩ | ⟨h0, -⟩ | ⟨h0, -⟩
        · exact ⟨h1, h2⟩
        · simp [ht] at h0
        · simp [ht] at h0
      obtain ⟨i1, i2, i3⟩ := ih t1 h1.1
      refine ⟨?_, ?_, ?_⟩
      · intro r hr
        rcases List.mem_cons.1 hr with rfl | hr
        · exact h1.1
        · exact i1 r hr
      · rw [trace_cons, List.countP_append, i2]; simpa using h1.2
      · rw [trace_cons, List.countP_append, i3]; simp only [hp]; simpa using h1.2

/-- Over any run the ready callback is called at most once, and the mixer's `play` as
often as the ready callback. -/
theorem run_count_ready (k : Int) (steps : List Step) :
    ∀ t : AudioTrack, (trace (run k t steps)).countP Event.isReady ≤ 1 ∧
      (trace (run k t steps)).countP Event.isMixerPlay
        = (trace (run k t steps)).countP Event.isReady := by
  induction steps with
  | nil => intro t; simp [run, trace]
  | cons s rest ih =>
    intro t
    cases hs : step k t s with
    | none => simp [run, hs, trace]
    | some r1 =>
      obtain ⟨t1, evs⟩ := r1
      rw [run_cons_some k t s rest t1 evs hs]
      obtain ⟨-, -, hp, hc⟩ := step_facts k t s t1 evs hs
      simp only [trace_cons, List.countP_append, hp]
      obtain ⟨i1, i2⟩ := ih t1
      rcases hc with ⟨-, -, h2⟩ | ⟨-, -, h2⟩ | ⟨-, h1, h2, -⟩
      · omega
      · omega
      · obtain ⟨-, j2, j3⟩ := run_initialized k rest t1 h1
        omega

/-- An event of the kind is in the list exactly when the count is positive. -/
theorem exists_isReady_iff (evs : List Event) :
    (∃ e ∈ evs, e.isReady = true) ↔ 0 < evs.countP Event.isReady := by
  rw [List.countP_pos_iff]

/-- In a run of `process` calls, the entry paired with a call is the result of that call
on a track that still has the initial identifier. -/
theorem run_zip_process (k : Int) (calls : List (Packet × DecodeOutcome)) :
    ∀ (t : AudioTrack) (c : Packet × DecodeOutcome) (r : AudioTrack × List Event),
      (c, r) ∈ calls.zip (run k t (processSteps calls)) →
      ∃ t0, t0.audioId = t.audioId ∧ process k t0 c.1 c.2 = some r := by
  induction calls with
  | nil => intro t c r h; simp at h
  | cons c0 cs ih =>
    intro t c r h
    obtain ⟨t1, evs, h1, h2⟩ := run_processSteps_cons k t c0 cs
    rw [h2, List.zip_cons_cons] at h
    rcases List.mem_cons.1 h with h | h
    · simp only [Prod.mk.injEq] at h
      obtain ⟨rfl, rfl⟩ := h
      exact ⟨t, rfl, h1⟩
    · obtain ⟨t0, h3, h4⟩ := ih t1 c r h
      obtain ⟨t2, evs2, h5, hid, -⟩ := process_cases k t c0.1 c0.2
      rw [h1] at h5
      simp only [Option.some.injEq, Prod.mk.injEq] at h5
      exact ⟨t0, by rw [h3, h5.1, hid], h4⟩

theorem lastTrack_run_cons (k : Int) (t : AudioTrack) (s : Step) (rest : List Step)
    (t1 : AudioTrack) (evs : List Event) (h : step k t s = some (t1, evs)) :
    lastTrack t (run k t (s :: rest)) = lastTrack t1 (run k t1 rest) := by
  rw [run_cons_some k t s rest t1 evs h]; rfl

/-- The identifier never changes, and a run that starts initialized ends initialized. -/
theorem lastTrack_run (k : Int) (steps : List Step) :
    ∀ t : AudioTrack, (lastTrack t (run k t steps)).audioId = t.audioId ∧
      (t.readyPending = false → (lastTrack t (run k t steps)).readyPending = false) := by
  induction steps with
  | nil => intro t; simp [run, lastTrack]
  | cons s rest ih =>
    intro t
    cases hs : step k t s with
    | none => simp [run, hs, lastTrack]
    | some r1 =>
      obtain ⟨t1, evs⟩ := r1
      rw [lastTrack_run_cons k t s rest t1 evs hs]
      obtain ⟨hid, -, -, hc⟩ := step_facts k t s t1 evs hs
      obtain ⟨i1, i2⟩ := ih t1
      refine ⟨by rw [i1, hid], fun ht => i2 ?_⟩
      rcases hc with ⟨-, h1, -⟩ | ⟨h0, -⟩ | ⟨h0, -⟩
      · exact h1
      · simp [ht] at h0
      · simp [ht] at h0

/-- A run in which the ready callback was called leaves an initialized track. -/
theorem lastTrack_of_ready (k : Int) (steps : List Step) :
    ∀ t : AudioTrack, 0 < (trace (run k t steps)).countP Event.isReady →
      (lastTrack t (run k t steps)).readyPending = false := by
  induction steps with
  | nil => intro t h; simp [run, trace] at h
  | cons s rest ih =>
    intro t h
    cases hs : step k t s with
    | none => simp [run, hs, trace] at h
    | some r1 =>
      obtain ⟨t1, evs⟩ := r1
      rw [lastTrack_run_cons k t s rest t1 evs hs]
      rw [run_cons_some k t s rest t1 evs hs, trace_cons, List.countP_append] at h
      obtain ⟨-, -, -, hc⟩ := step_facts k t s t1 evs hs
      rcases hc with ⟨-, h1, -⟩ | ⟨-, -, h2⟩ | ⟨-, h1, -⟩
      · exact (lastTrack_run k rest t1).2 h1
      · exact ih t1 (by simp only [h2] at h; omega)
      · exact (lastTrack_run k rest t1).2 h1

/-! ## The claims -/

/-- C1: over every sequence of packets fed through `process`, whatever the decoder
answers, every call returns, the ready callback is called at most once, it is called only
in a call in which feeding succeeded, `ReadNextFrame` produced a frame and the frame's
position is not `kTimeUnknown`, and from the call that invokes it on `initialized()` is
true in every later state. This holds from any track, a freshly constructed one
included. -/
theorem ready_at_most_once (k : Int) (t : AudioTrack) (calls : List (Packet × DecodeOutcome)) :
    (run k t (processSteps calls)).length = calls.length ∧
    (trace (run k t (processSteps calls))).countP Event.isReady ≤ 1 ∧
    (∀ c r, (c, r) ∈ calls.zip (run k t (processSteps calls)) →
      (∃ e ∈ r.2, e.isReady = true) →
        c.2.processFailed = false ∧ c.2.readResult = ReadResult.frame ∧
          c.2.framePosition ≠ k) ∧
    (∀ pre r post, run k t (processSteps calls) = pre ++ r :: post →
      (∃ e ∈ r.2, e.isReady = true) →
        initialized r.1 = true ∧ ∀ r1 ∈ post, initialized r1.1 = true) := by
  refine ⟨run_processSteps_length k calls t, (run_count_ready k _ t).1, ?_, ?_⟩
  · intro c r hm he
    obtain ⟨t0, -, hp⟩ := run_zip_process k calls t c r hm
    obtain ⟨t1, evs, h1, -, -, -, -, hc⟩ := process_cases k t0 c.1 c.2
    rw [hp] at h1
    simp only [Option.some.injEq] at h1
    subst h1
    rcases hc with ⟨-, -, h⟩ | ⟨-, h, -⟩ | ⟨-, -, -, h⟩ | ⟨-, -, -, -, h | h⟩
    · simp [h, Event.isReady] at he
    · exact h
    · simp [h, Event.isReady] at he
    · simp [h, Event.isReady] at he
    · simp [h, Event.isReady] at he
  · intro pre r post hrun he
    obtain ⟨t0, s, rest, hs, hpost⟩ := run_split k _ t pre r post hrun
    obtain ⟨-, -, -, hc⟩ := step_facts k t0 s r.1 r.2 hs
    rw [exists_isReady_iff] at he
    have h1 : r.1.readyPending = false := by
      rcases hc with ⟨-, -, h2⟩ | ⟨-, -, h2⟩ | ⟨-, h1, -⟩
      · omega
      · omega
      · exact h1
    refine ⟨by simp [initialized, h1], ?_⟩
    intro r1 hr1
    rw [hpost] at hr1
    simp [initialized, (run_initialized k rest r.1 h1).1 r1 hr1]

/-- C4: once the ready callback has been called in a run (of `process` calls,
`playPosition` calls and notifications, from any track `t`), the next `process` call, for
every packet, the empty one included, and whatever the decoder would answer, makes exactly
one call, `feedFromVideo` with that packet and the track's identifier: no call into the
decoder, no callback. It only records whether the packet was empty. -/
theorem process_after_ready_forwards (k : Int) (t : AudioTrack) (steps : List Step)
    (h : ∃ e ∈ trace (run k t steps), e.isReady = true) (p : Packet) (o : DecodeOutcome) :
    process k (lastTrack t (run k t steps)) p o
      = some ({ lastTrack t (run k t steps) with noMoreData := p.empty },
          [Event.mixerFeedFromVideo p t.audioId]) := by
  rw [exists_isReady_iff] at h
  rw [process_initialized k _ p o (lastTrack_of_ready k steps t h)]
  simp [(lastTrack_run k steps t).1]

/-- C6: on an uninitialized track, a non-empty packet that is fed successfully and for
which `ReadNextFrame` answers "need more input" makes `process` call the decoder twice and
nothing else: no callback, no call into the mixer; the track stays uninitialized. -/
theorem process_transient_wait (k : Int) (t : AudioTrack) (p : Packet) (o : DecodeOutcome)
    (ht : initialized t = false) (hp : p.empty = false) (hf : o.processFailed = false)
    (hr : o.readResult = ReadResult.again) :
    process k t p o
        = some ({ t with noMoreData := false },
            [Event.processPacket p, Event.readNextFrame]) ∧
      initialized { t with noMoreData := false } = false := by
  have h1 : t.readyPending = true := by simpa [initialized] using ht
  rw [process_uninitialized k t p o h1]
  simp [hp, hf, hr, initialized, h1]

/-- C5: whenever `process` calls the ready callback, the payload carries the stream's
duration, as position the started position, which is the position of the frame just read,
and as `receivedTill` the duration when the packet of this call is the end-of-stream
marker and the started position otherwise. In particular, on a fresh track with duration
5000 and frequency 44100 whose first packet decodes to a frame at position 0, the payload
is (duration 5000, position 0, receivedTill 0) for a non-empty packet and has
receivedTill 5000 for an empty one. -/
theorem ready_payload (k : Int) :
    (∀ (t : AudioTrack) (p : Packet) (o : DecodeOutcome) (t1 : AudioTrack)
        (evs : List Event) (info : AudioInformation),
      process k t p o = some (t1, evs) → Event.ready info ∈ evs →
        info.state.duration = t.stream.duration ∧
        info.state.position = t1.startedPosition ∧
        t1.startedPosition = o.framePosition ∧
        info.state.receivedTill
          = if p.empty then t.stream.duration else t1.startedPosition) ∧
    (k ≠ 0 → ∀ (speed index : Int) (frame codec : Option Nat) (id : AudioMsgId)
        (noMoreData : Bool) (startedPosition : Int) (t : AudioTrack) (p : Packet),
      AudioTrack.create { position := 0, speed := speed }
          { index := index, duration := 5000, frequency := 44100, frame := frame,
            codec := codec } id noMoreData startedPosition = some t →
        ∃ t1 evs,
          process k t p
            { processFailed := false, readResult := ReadResult.frame, framePosition := 0 }
              = some (t1, evs) ∧
          (p.empty = false →
            Event.ready { state := { duration := 5000, position := 0, receivedTill := 0 } }
              ∈ evs) ∧
          (p.empty = true →
            Event.ready { state := { duration := 5000, position := 0, receivedTill := 5000 } }
              ∈ evs)) := by
  constructor
  · intro t p o t1 evs info h hm
    cases hr : t.readyPending
    · rw [process_initialized k t p o hr] at h
      simp only [Option.some.injEq, Prod.mk.injEq] at h
      obtain ⟨-, rfl⟩ := h
      simp at hm
    · rw [process_uninitialized k t p o hr] at h
      rcases o with ⟨pf, rr, fp⟩
      cases pf <;> cases rr <;> cases hp : p.empty <;> simp [hp] at h
      all_goals first
        | (obtain ⟨-, rfl⟩ := h; simp at hm)
        | (by_cases hk : fp = k
           · simp [hk] at h; obtain ⟨-, rfl⟩ := h; simp at hm
           · simp [hk] at h; obtain ⟨rfl, rfl⟩ := h
             simp at hm; subst hm; simp)
  · intro hk speed index frame codec id nmd sp t p hc
    have ht : t.readyPending = true ∧ t.stream.duration = 5000 := by
      unfold AudioTrack.create at hc
      split_ifs at hc
      simp only [Option.some.injEq] at hc
      subst hc
      simp
    have hne : ¬ ((0 : Int) = k) := fun h => hk h.symm
    have hproc := process_uninitialized k t p
      { processFailed := false, readResult := ReadResult.frame, framePosition := 0 } ht.1
    simp only [Bool.false_eq_true, if_false, if_neg hne] at hproc
    refine ⟨_, _, hproc, ?_, ?_⟩
    · intro hp
      simp [hp, ht.2]
    · intro hp
      simp [hp, ht.2]

/-- C7: over every sequence of `process` calls (from any track `t`, a fresh one included)
the mixer's `play` is called at most once; a call of `process` calls it exactly when it
calls the ready callback, and then the calls of that `process` are, in order, the two
decoder calls, `play` with the track's identifier and the started position, and the ready
callback; a call of `process` that calls the error callback, or that leaves the track
uninitialized, does not call `play`. -/
theorem mixer_play_once_with_ready (k : Int) (t : AudioTrack)
    (calls : List (Packet × DecodeOutcome)) :
    (run k t (processSteps calls)).length = calls.length ∧
    (trace (run k t (processSteps calls))).countP Event.isMixerPlay ≤ 1 ∧
    (∀ c r, (c, r) ∈ calls.zip (run k t (processSteps calls)) →
      ((∃ e ∈ r.2, e.isMixerPlay = true) ↔ (∃ e ∈ r.2, e.isReady = true)) ∧
      ((∃ e ∈ r.2, e.isReady = true) →
        ∃ data info, r.2 = [Event.processPacket c.1, Event.readNextFrame,
          Event.mixerPlay t.audioId data r.1.startedPosition, Event.ready info]) ∧
      (Event.error ∈ r.2 ∨ initialized r.1 = false →
        ∀ e ∈ r.2, e.isMixerPlay = false)) := by
  refine ⟨run_processSteps_length k calls t, ?_, ?_⟩
  · rw [(run_count_ready k _ t).2]; exact (run_count_ready k _ t).1
  · intro c r hm
    obtain ⟨t0, hid, hp⟩ := run_zip_process k calls t c r hm
    obtain ⟨t1, evs, h1, -, -, -, -, hc⟩ := process_cases k t0 c.1 c.2
    rw [hp] at h1
    simp only [Option.some.injEq] at h1
    subst h1
    rcases hc with ⟨-, h0, h⟩ | ⟨-, -, h0, d, i, h⟩ | ⟨-, -, h0, h⟩ | ⟨-, -, -, h0, h | h⟩ <;>
      simp [h, h0, hid, initialized, Event.isReady, Event.isMixerPlay]

/-- Without a decodable frame the track stays uninitialized: `process` calls the error
callback once, unless the call is a transient wait, and never the ready callback. -/
theorem process_no_frame (k : Int) (t : AudioTrack) (p : Packet) (o : DecodeOutcome)
    (ht : t.readyPending = true) (ho : ¬ o.yieldsFrame) :
    ∃ t1 evs, process k t p o = some (t1, evs) ∧ t1.readyPending = true ∧
      evs.countP Event.isReady = 0 ∧
      evs.countP Event.isError = if transientWait p o then 0 else 1 := by
  obtain ⟨t1, evs, h1, -, -, -, -, hc⟩ := process_cases k t p o
  refine ⟨t1, evs, h1, ?_⟩
  rcases hc with ⟨h0, -⟩ | ⟨-, hs, -⟩ | ⟨-, hw, h0, h⟩ | ⟨-, -, hw, h0, h | h⟩
  · simp [ht] at h0
  · exact absurd ⟨hs.1, hs.2.1⟩ ho
  · simp [h, h0, hw, Event.isReady, Event.isError]
  · simp [h, h0, hw, Event.isReady, Event.isError]
  · simp [h, h0, hw, Event.isReady, Event.isError]

/-- Over packets none of which yields a decodable frame, the error callback is called
once per call that is not a transient wait, and the ready callback never. -/
theorem run_no_frame (k : Int) (calls : List (Packet × DecodeOutcome)) :
    ∀ t : AudioTrack, t.readyPending = true → (∀ c ∈ calls, ¬ c.2.yieldsFrame) →
      (trace (run k t (processSteps calls))).countP Event.isReady = 0 ∧
      (trace (run k t (processSteps calls))).countP Event.isError
        = (calls.filter (fun c => decide (¬ transientWait c.1 c.2))).length := by
  induction calls with
  | nil => intro t _ _; simp [processSteps, run, trace]
  | cons c cs ih =>
    intro t ht hall
    obtain ⟨t1, evs, h1, h2, h3, h4⟩ :=
      process_no_frame k t c.1 c.2 ht (hall c (List.mem_cons_self _ _))
    obtain ⟨t2, evs2, h5, h6⟩ := run_processSteps_cons k t c cs
    rw [h1] at h5
    simp only [Option.some.injEq, Prod.mk.injEq] at h5
    obtain ⟨rfl, rfl⟩ := h5
    obtain ⟨i1, i2⟩ := ih t1 h2 (fun c1 hc1 => hall c1 (List.mem_cons_of_mem _ hc1))
    rw [h6, trace_cons, List.countP_append, List.countP_append, i1, i2, h3, h4]
    by_cases hw : transientWait c.1 c.2
    · simp [hw]
    · simp [hw]; omega

/-- C2, as amended: for every non-empty sequence of packets fed through `process` on a
freshly constructed track such that no call yields a decodable frame and the final packet
is the end-of-stream marker, the ready callback is never called, and the error callback is
called once in the final call and once in every earlier call that is not a transient wait
(a non-empty packet, fed successfully, for which the decoder needs more input): exactly
once over the whole sequence when every earlier call is a transient wait. -/
theorem error_without_frame (k : Int) (options : PlaybackOptions) (stream : Stream)
    (audioId : AudioMsgId) (noMoreData : Bool) (startedPosition : Int) (t : AudioTrack)
    (hc : AudioTrack.create options stream audioId noMoreData startedPosition = some t)
    (init : List (Packet × DecodeOutcome)) (last : Packet × DecodeOutcome)
    (hno : ∀ c ∈ init ++ [last], ¬ c.2.yieldsFrame) (hlast : last.1.empty = true) :
    (run k t (processSteps (init ++ [last]))).length = (init ++ [last]).length ∧
    (trace (run k t (processSteps (init ++ [last])))).countP Event.isReady = 0 ∧
    (trace (run k t (processSteps (init ++ [last])))).countP Event.isError
      = (init.filter (fun c => decide (¬ transientWait c.1 c.2))).length + 1 ∧
    ((∀ c ∈ init, transientWait c.1 c.2) →
      (trace (run k t (processSteps (init ++ [last])))).countP Event.isError = 1) := by
  have ht : t.readyPending = true := by
    unfold AudioTrack.create at hc
    split_ifs at hc
    simp only [Option.some.injEq] at hc
    subst hc
    rfl
  obtain ⟨h1, h2⟩ := run_no_frame k (init ++ [last]) t ht hno
  have h3 : ¬ transientWait last.1 last.2 := by
    intro hw
    rw [hw.1] at hlast
    exact Bool.false_ne_true hlast
  have h4 : (trace (run k t (processSteps (init ++ [last])))).countP Event.isError
      = (init.filter (fun c => decide (¬ transientWait c.1 c.2))).length + 1 := by
    rw [h2, List.filter_append]
    simp [h3]
  refine ⟨run_processSteps_length k _ t, h1, h4, ?_⟩
  intro hall
  rw [h4]
  have : init.filter (fun c => decide (¬ transientWait c.1 c.2)) = [] := by
    rw [List.filter_eq_nil_iff]
    intro c hc1
    simpa using hall c hc1
  rw [this]
  rfl

/-- C3, as amended: over every sequence of `process` calls, `playPosition` calls and
notifications, each step calls the error callback at most once, so the error callback is
called at most as many times as there are steps; it is called at most once over the whole
sequence when no step before the last completed one calls it. -/
theorem error_at_most_once_per_step (k : Int) (t : AudioTrack) (steps : List Step) :
    (∀ r ∈ run k t steps, r.2.countP Event.isError ≤ 1) ∧
    (trace (run k t steps)).countP Event.isError ≤ steps.length ∧
    (∀ pre r, run k t steps = pre ++ [r] → (trace pre).countP Event.isError = 0 →
      (trace (run k t steps)).countP Event.isError ≤ 1) := by
  have hstep : ∀ r ∈ run k t steps, r.2.countP Event.isError ≤ 1 := by
    intro r hr
    obtain ⟨pre, post, hsplit⟩ := List.append_of_mem hr
    obtain ⟨t0, s, rest, hs, -⟩ := run_split k steps t pre r post hsplit
    exact (step_facts k t0 s r.1 r.2 hs).2.1
  refine ⟨hstep, ?_, ?_⟩
  · clear hstep
    induction steps generalizing t with
    | nil => simp [run, trace]
    | cons s rest ih =>
      cases hs : step k t s with
      | none => simp [run, hs, trace]
      | some r1 =>
        obtain ⟨t1, evs⟩ := r1
        rw [run_cons_some k t s rest t1 evs hs, trace_cons, List.countP_append]
        have h1 := (step_facts k t s t1 evs hs).2.1
        have h2 := ih t1
        simp only [List.length_cons]
        omega
  · intro pre r hrun h0
    have h1 := hstep r (by rw [hrun]; simp)
    rw [hrun]
    have : trace (pre ++ [r]) = trace pre ++ r.2 := by simp [trace]
    rw [this, List.countP_append, h0]
    omega

/-! ## Arithmetic -/

/-- A representable result is what the register holds. -/
theorem wrapInt64_of_fits (x : Int) (h : fitsInt64 x) : wrapInt64 x = x := by
  unfold fitsInt64 at h
  unfold wrapInt64
  norm_num at h ⊢
  omega

/-- The machine's quotient is the quotient of the absolute values with the sign of the
exact quotient. -/
theorem tdiv_eq_truncatedQuotient (n d : Int) : Int.tdiv n d = truncatedQuotient n d := by
  unfold truncatedQuotient
  rcases Int.natAbs_eq n with hn | hn <;> rcases Int.natAbs_eq d with hd | hd
  · rcases Nat.eq_zero_or_pos n.natAbs with h0 | h0
    · have : n = 0 := Int.natAbs_eq_zero.1 h0
      simp [this]
    rcases Nat.eq_zero_or_pos d.natAbs with h1 | h1
    · have : d = 0 := Int.natAbs_eq_zero.1 h1
      simp [this]
    have hn0 : 0 < n := by omega
    have hd0 : 0 < d := by omega
    rw [Int.sign_eq_one_of_pos hn0, Int.sign_eq_one_of_pos hd0,
      Int.tdiv_eq_ediv (le_of_lt hn0) (le_of_lt hd0)]
    conv_lhs => rw [hn, hd]
    simp
  · rcases Nat.eq_zero_or_pos n.natAbs with h0 | h0
    · have : n = 0 := Int.natAbs_eq_zero.1 h0
      simp [this]
    rcases Nat.eq_zero_or_pos d.natAbs with h1 | h1
    · have : d = 0 := Int.natAbs_eq_zero.1 h1
      simp [this]
    have hn0 : 0 < n := by omega
    have hd0 : d < 0 := by omega
    rw [Int.sign_eq_one_of_pos hn0, Int.sign_eq_neg_one_of_neg hd0]
    conv_lhs => rw [hn, hd]
    rw [Int.tdiv_neg, Int.tdiv_eq_ediv (by omega) (by omega)]
    simp
  · rcases Nat.eq_zero_or_pos n.natAbs with h0 | h0
    · have : n = 0 := Int.natAbs_eq_zero.1 h0
      simp [this]
    rcases Nat.eq_zero_or_pos d.natAbs with h1 | h1
    · have : d = 0 := Int.natAbs_eq_zero.1 h1
      simp [this]
    have hn0 : n < 0 := by omega
    have hd0 : 0 < d := by omega
    rw [Int.sign_eq_neg_one_of_neg hn0, Int.sign_eq_one_of_pos hd0]
    conv_lhs => rw [hn, hd]
    rw [Int.neg_tdiv, Int.tdiv_eq_ediv (by omega) (by omega)]
    simp
  · rcases Nat.eq_zero_or_pos n.natAbs with h0 | h0
    · have : n = 0 := Int.natAbs_eq_zero.1 h0
      simp [this]
    rcases Nat.eq_zero_or_pos d.natAbs with h1 | h1
    · have : d = 0 := Int.natAbs_eq_zero.1 h1
      simp [this]
    have hn0 : n < 0 := by omega
    have hd0 : d < 0 := by omega
    rw [Int.sign_eq_neg_one_of_neg hn0, Int.sign_eq_neg_one_of_neg hd0]
    conv_lhs => rw [hn, hd]
    rw [Int.neg_tdiv_neg, Int.tdiv_eq_ediv (by omega) (by omega)]
    simp

/-- Truncating division by a positive number is monotone. -/
theorem tdiv_le_tdiv_of_le {a b c : Int} (hc : 0 < c) (h : a ≤ b) :
    a.tdiv c ≤ b.tdiv c := by
  have key : ∀ x : Int, x < 0 → x.tdiv c = -((-x) / c) := by
    intro x hx
    have h1 := Int.neg_tdiv (-x) c
    rw [neg_neg] at h1
    rw [h1, Int.tdiv_eq_ediv (by omega) (le_of_lt hc)]
  rcases lt_or_le a 0 with ha | ha
  · rcases lt_or_le b 0 with hb | hb
    · rw [key a ha, key b hb]
      have := Int.ediv_le_ediv hc (show -b ≤ -a by omega)
      omega
    · rw [key a ha]
      have h1 : 0 ≤ (-a) / c := Int.ediv_nonneg (by omega) (le_of_lt hc)
      have h2 : 0 ≤ b.tdiv c := Int.tdiv_nonneg hb (le_of_lt hc)
      omega
  · rw [Int.tdiv_eq_ediv ha (le_of_lt hc), Int.tdiv_eq_ediv (le_trans ha h) (le_of_lt hc)]
    exact Int.ediv_le_ediv hc h

/-- With a nonzero frequency and a representable product the position in milliseconds is
the exact truncated quotient. -/
theorem divInt64_mulInt64 (p f : Int) (hf : f ≠ 0) (hfit : fitsInt64 (p * 1000)) :
    divInt64 (mulInt64 p 1000) f = some (Int.tdiv (p * 1000) f) := by
  unfold mulInt64
  rw [wrapInt64_of_fits _ hfit]
  unfold divInt64
  have h1 : ¬ (f = 0 ∨ (p * 1000 = -(2 ^ 63) ∧ f = -1)) := by
    rintro (h | ⟨h, -⟩)
    · exact hf h
    · norm_num at h
      omega
  rw [if_neg h1]

/-- C8: on an uninitialized track `mixerInit` calls the mixer's `play` once, and the
sample length it hands over is `duration * frequency / 1000`, the product computed in the
64-bit register and the quotient truncated toward zero. It is the exact truncated quotient
of the product whenever the product is representable; for duration 5000 and frequency
44100 it is 220500, and for duration 1 and frequency 3 it is 0. -/
theorem mixerInit_sample_length (t : AudioTrack) (ht : initialized t = false) :
    ∃ t1 data,
      mixerInit t = some (t1, [Event.mixerPlay t.audioId data t.startedPosition]) ∧
      data.length
        = truncatedQuotient (wrapInt64 (t.stream.duration * t.stream.frequency)) 1000 ∧
      (fitsInt64 (t.stream.duration * t.stream.frequency) →
        data.length = truncatedQuotient (t.stream.duration * t.stream.frequency) 1000 ∧
        data.length = Int.tdiv (t.stream.duration * t.stream.frequency) 1000) ∧
      (t.stream.duration = 5000 → t.stream.frequency = 44100 → data.length = 220500) ∧
      (t.stream.duration = 1 → t.stream.frequency = 3 → data.length = 0) := by
  refine ⟨_, _, by simp only [mixerInit, ht]; rfl, ?_, ?_, ?_, ?_⟩
  · simp only [mulInt64]
    exact tdiv_eq_truncatedQuotient _ _
  · intro hfit
    simp only [mulInt64]
    rw [wrapInt64_of_fits _ hfit]
    exact ⟨tdiv_eq_truncatedQuotient _ _, rfl⟩
  · intro hd hf
    simp only [hd, hf]
    decide
  · intro hd hf
    simp only [hd, hf]
    decide

/-- The subscription on a notification that carries the track's identifier while the mixer
plays this track: the switch over the mixer's state. -/
theorem playPositionHandler_matching (t : AudioTrack) (id : AudioMsgId) (st : MixerState)
    (h1 : id = t.audioId) (h2 : st.id = t.audioId) :
    playPositionHandler t id st =
      match st.state with
      | State.Stopped | State.StoppedAtEnd | State.PausedAtEnd =>
        some ({ t with playPosition := none }, [])
      | State.StoppedAtError | State.StoppedAtStart => some (t, [Event.error])
      | State.Starting | State.Playing | State.Stopping | State.Pausing | State.Resuming =>
        (divInt64 (mulInt64 st.position 1000) st.frequency).map
          (fun ms => ({ t with playPosition := some ms }, []))
      | State.Paused => some (t, []) := by
  unfold playPositionHandler
  simp only [h1, h2, ne_eq, not_true_eq_false, if_false]
  cases st.state <;> simp only [] <;>
    cases divInt64 (mulInt64 st.position 1000) st.frequency <;> rfl

/-- What a subscribed track stores while the mixer reports `Playing` for it at the given
sample positions and a constant positive frequency. -/
theorem playingSteps_run (k : Int) (f : Int) (hf : 0 < f) (positions : List Int) :
    ∀ t : AudioTrack, t.subscribed = true → (∀ p ∈ positions, fitsInt64 (p * 1000)) →
      (run k t (positions.map (fun p => Step.updated t.audioId
          { id := t.audioId, state := State.Playing, position := p, frequency := f }))).map
        (fun r => r.1.playPosition)
      = positions.map (fun p => some (Int.tdiv (p * 1000) f)) := by
  induction positions with
  | nil => intro t _ _; simp [run]
  | cons p ps ih =>
    intro t hs hfit
    have h2 : playPositionHandler t t.audioId
        { id := t.audioId, state := State.Playing, position := p, frequency := f }
        = some ({ t with playPosition := some (Int.tdiv (p * 1000) f) }, []) := by
      rw [playPositionHandler_matching t _ _ rfl rfl]
      simp only []
      rw [divInt64_mulInt64 _ _ (ne_of_gt hf) (hfit p (List.mem_cons_self _ _))]
      rfl
    have h3 : step k t (Step.updated t.audioId
        { id := t.audioId, state := State.Playing, position := p, frequency := f })
        = some ({ t with playPosition := some (Int.tdiv (p * 1000) f) }, []) := by
      simp only [step]
      rw [if_pos hs]
      exact h2
    rw [List.map_cons, run_cons_some k t _ _ _ _ h3, List.map_cons, List.map_cons]
    have h4 := ih { t with playPosition := some (Int.tdiv (p * 1000) f) } hs
      (fun q hq => hfit q (List.mem_cons_of_mem _ hq))
    simp only at h4
    rw [h4]

/-- C10, as amended: for a positive constant frequency and `Playing` notifications for
this track whose sample positions never decrease and whose products with 1000 are
representable in a signed 64-bit integer, a subscribed track stores, notification after
notification, the positions in milliseconds `position * 1000 / frequency` truncated toward
zero, and these never decrease. -/
theorem playing_positions_nondecreasing (k : Int) (t : AudioTrack) (hs : t.subscribed = true)
    (f : Int) (hf : 0 < f) (positions : List Int)
    (hmono : positions.Pairwise (fun a b => a ≤ b))
    (hfit : ∀ p ∈ positions, fitsInt64 (p * 1000)) :
    (run k t (positions.map (fun p => Step.updated t.audioId
        { id := t.audioId, state := State.Playing, position := p, frequency := f }))).map
      (fun r => r.1.playPosition)
      = positions.map (fun p => some (Int.tdiv (p * 1000) f)) ∧
    (positions.map (fun p => Int.tdiv (p * 1000) f)).Pairwise (fun a b => a ≤ b) := by
  refine ⟨playingSteps_run k f hf positions t hs hfit, ?_⟩
  refine List.Pairwise.map _ ?_ hmono
  intro a b hab
  exact tdiv_le_tdiv_of_le hf (by omega)

/-! ## Instances -/

/-- C1 on a concrete run: a wait, a start, and a forwarded end-of-stream marker. -/
theorem ready_at_most_once_witness :
    (trace (run demoTimeUnknown demoTrack (processSteps
      [(demoPacket, needsMoreInput), (demoPacket, frameAtZero),
        (emptyPacket, feedFails)]))).countP Event.isReady ≤ 1 :=
  (ready_at_most_once demoTimeUnknown demoTrack
    [(demoPacket, needsMoreInput), (demoPacket, frameAtZero), (emptyPacket, feedFails)]).2.1

/-- C2 on a concrete run: a wait, then the end-of-stream marker for which the decoder
still needs input; the error callback is called once. -/
theorem error_without_frame_witness :
    (∀ c ∈ [(demoPacket, needsMoreInput)] ++ [(emptyPacket, needsMoreInput)],
        ¬ c.2.yieldsFrame) ∧
      (trace (run demoTimeUnknown demoTrack (processSteps
        ([(demoPacket, needsMoreInput)] ++ [(emptyPacket, needsMoreInput)])))).countP
          Event.isError = 1 :=
  ⟨by decide,
    (error_without_frame demoTimeUnknown { position := 0, speed := 1 }
      { index := 0, duration := 5000, frequency := 44100, frame := some 1, codec := some 2 }
      { playId := 7 } false 0 demoTrack rfl [(demoPacket, needsMoreInput)]
      (emptyPacket, needsMoreInput) (by decide) rfl).2.2.2 (by decide)⟩

/-- C2 as stated fails: on a fresh track, a packet the decoder rejects is followed by
the end-of-stream marker, for which the decoder needs more input. No call yields a frame,
the final packet is empty, and the error callback is called twice. -/
theorem error_twice_without_frame :
    AudioTrack.create { position := 0, speed := 1 }
        { index := 0, duration := 5000, frequency := 44100, frame := some 1, codec := some 2 }
        { playId := 7 } false 0 = some demoTrack ∧
      (∀ c ∈ [(demoPacket, feedFails), (emptyPacket, needsMoreInput)],
        ¬ c.2.yieldsFrame) ∧
      emptyPacket.empty = true ∧
      (trace (run demoTimeUnknown demoTrack (processSteps
        [(demoPacket, feedFails), (emptyPacket, needsMoreInput)]))).countP
          Event.isError = 2 ∧
      (trace (run demoTimeUnknown demoTrack (processSteps
        [(demoPacket, feedFails), (emptyPacket, needsMoreInput)]))).countP
          Event.isReady = 0 := by
  refine ⟨rfl, by decide, rfl, by decide, by decide⟩

/-- C3 on a concrete run: the track starts, is subscribed, and the mixer reports an
error once. -/
theorem error_at_most_once_per_step_witness :
    (trace (run demoTimeUnknown demoTrack
      [Step.process demoPacket frameAtZero, Step.playPosition,
        Step.updated { playId := 7 } stoppedAtError])).countP Event.isError ≤ 1 :=
  (error_at_most_once_per_step demoTimeUnknown demoTrack
    [Step.process demoPacket frameAtZero, Step.playPosition,
      Step.updated { playId := 7 } stoppedAtError]).2.2
    [({ demoTrack with
          stream := { demoTrack.stream with frame := none, codec := none }
          readyPending := false },
        [Event.processPacket demoPacket, Event.readNextFrame,
          Event.mixerPlay { playId := 7 }
            { frame := some 1, context := some 2, frequency := 44100, length := 220500,
              speed := 1 } 0,
          Event.ready { state := { position := 0, receivedTill := 0, duration := 5000 } }]),
      ({ demoTrack with
          stream := { demoTrack.stream with frame := none, codec := none }
          readyPending := false, subscribed := true }, [])]
    ({ demoTrack with
        stream := { demoTrack.stream with frame := none, codec := none }
        readyPending := false, subscribed := true }, [Event.error])
    (by decide) (by decide)

/-- C3 as stated fails. On a fresh track two packets the decoder rejects call the error
callback twice; and on a track that has started and is subscribed, two notifications
while the mixer reports `StoppedAtError` call it twice. All steps complete. -/
theorem error_twice :
    (trace (run demoTimeUnknown demoTrack
        [Step.process demoPacket feedFails, Step.process demoPacket feedFails])).countP
          Event.isError = 2 ∧
      (run demoTimeUnknown demoTrack
        [Step.process demoPacket frameAtZero, Step.playPosition,
          Step.updated { playId := 7 } stoppedAtError,
          Step.updated { playId := 7 } stoppedAtError]).length = 4 ∧
      (trace (run demoTimeUnknown demoTrack
        [Step.process demoPacket frameAtZero, Step.playPosition,
          Step.updated { playId := 7 } stoppedAtError,
          Step.updated { playId := 7 } stoppedAtError])).countP Event.isError = 2 := by
  refine ⟨by decide, by decide, by decide⟩

/-- C4 on a concrete run: after the track has started, the end-of-stream marker is only
forwarded, even though the decoder would reject it. -/
theorem process_after_ready_forwards_witness :
    (∃ e ∈ trace (run demoTimeUnknown demoTrack [Step.process demoPacket frameAtZero]),
        e.isReady = true) ∧
      process demoTimeUnknown
          (lastTrack demoTrack
            (run demoTimeUnknown demoTrack [Step.process demoPacket frameAtZero]))
          emptyPacket feedFails
        = some ({ lastTrack demoTrack
            (run demoTimeUnknown demoTrack [Step.process demoPacket frameAtZero]) with
              noMoreData := emptyPacket.empty },
            [Event.mixerFeedFromVideo emptyPacket demoTrack.audioId]) :=
  ⟨by decide,
    process_after_ready_forwards demoTimeUnknown demoTrack
      [Step.process demoPacket frameAtZero] (by decide) emptyPacket feedFails⟩

/-- C5 on the spec's scenario: the fresh demo track and a first packet decoded at
position 0. -/
theorem ready_payload_witness :
    ∃ t1 evs, process demoTimeUnknown demoTrack demoPacket
        { processFailed := false, readResult := ReadResult.frame, framePosition := 0 }
          = some (t1, evs) ∧
      (demoPacket.empty = false →
        Event.ready { state := { duration := 5000, position := 0, receivedTill := 0 } }
          ∈ evs) ∧
      (demoPacket.empty = true →
        Event.ready { state := { duration := 5000, position := 0, receivedTill := 5000 } }
          ∈ evs) :=
  (ready_payload demoTimeUnknown).2 (by decide) 1 0 (some 1) (some 2) { playId := 7 }
    false 0 demoTrack demoPacket rfl

/-- C6 on the fresh demo track. -/
theorem process_transient_wait_witness :
    process demoTimeUnknown demoTrack demoPacket needsMoreInput
        = some ({ demoTrack with noMoreData := false },
            [Event.processPacket demoPacket, Event.readNextFrame]) ∧
      initialized { demoTrack with noMoreData := false } = false :=
  process_transient_wait demoTimeUnknown demoTrack demoPacket needsMoreInput
    rfl rfl rfl rfl

/-- C7 on a concrete run: a wait, a start, and a forwarded end-of-stream marker. -/
theorem mixer_play_once_with_ready_witness :
    (trace (run demoTimeUnknown demoTrack (processSteps
      [(demoPacket, needsMoreInput), (demoPacket, frameAtZero),
        (emptyPacket, feedFails)]))).countP Event.isMixerPlay ≤ 1 :=
  (mixer_play_once_with_ready demoTimeUnknown demoTrack
    [(demoPacket, needsMoreInput), (demoPacket, frameAtZero), (emptyPacket, feedFails)]).2.1

/-- C8 on the demo track: 5000 ms at 44100 Hz are 220500 samples. -/
theorem mixerInit_sample_length_witness :
    ∃ t1 data,
      mixerInit demoTrack
        = some (t1, [Event.mixerPlay demoTrack.audioId data demoTrack.startedPosition]) ∧
      data.length = 220500 :=
  match mixerInit_sample_length demoTrack rfl with
  | ⟨t1, data, h1, _, _, h4, _⟩ => ⟨t1, data, h1, h4 rfl rfl⟩

/-- C10 on three notifications at 44100 samples per second. -/
theorem playing_positions_nondecreasing_witness :
    (run demoTimeUnknown demoPlayingTrack
      ([0, 22050, 44100].map (fun p => Step.updated demoPlayingTrack.audioId
        { id := demoPlayingTrack.audioId, state := State.Playing, position := p,
          frequency := 44100 }))).map (fun r => r.1.playPosition)
      = [some 0, some 500, some 1000] ∧
    ([0, 22050, 44100].map (fun p => Int.tdiv (p * 1000) 44100)).Pairwise
      (fun a b => a ≤ b) :=
  playing_positions_nondecreasing demoTimeUnknown demoPlayingTrack rfl 44100 (by decide)
    [0, 22050, 44100] (by decide) (by decide)

/-- C10 as stated fails: on a subscribed track, two `Playing` notifications for it at
44100 samples per second with the increasing sample positions 9223372036854775 and
9223372036854776. The second product with 1000 exceeds the largest signed 64-bit integer
and wraps, so the track stores 209146758205323 ms and then -209146758205323 ms: the stored
values decrease. -/
theorem playing_positions_decrease :
    (0 : Int) < 44100 ∧
      demoPlayingTrack.subscribed = true ∧
      ([9223372036854775, 9223372036854776] : List Int).Pairwise (fun a b => a < b) ∧
      (run demoTimeUnknown demoPlayingTrack
        ([9223372036854775, 9223372036854776].map
          (fun p => Step.updated demoPlayingTrack.audioId
            { id := demoPlayingTrack.audioId, state := State.Playing, position := p,
              frequency := 44100 }))).map (fun r => r.1.playPosition)
        = [some 209146758205323, some (-209146758205323)] ∧
      ¬ ([209146758205323, -209146758205323] : List Int).Pairwise (fun a b => a ≤ b) ∧
      ¬ fitsInt64 (9223372036854776 * 1000) := by
  refine ⟨by decide, rfl, by decide, by decide, by decide, by decide⟩

end Media.Streaming
